import Mathlib

/-!
Shallow embedding of the bidirectional sheet/DB synchronization engine:
the update queue with last-write-wins conflict resolution and echo
suppression (src/src/services/updateQueue.service.js), the store adapter
upsert policy (DatabaseService.upsertOrder), the change version tracker
(SyncQueueService), and the SSE broadcast hub (SSEController).

JavaScript `Map` objects are modelled as association lists over `String`
keys that preserve insertion order (`Map.set` replaces in place, new keys
append). `Date.now()` is modelled as an explicit integer parameter `now`
threaded through each operation.
-/

namespace SyncModel

/-- Lookup in an insertion-ordered association list (JS `Map.get`). -/
def lookupA {κ α : Type} [DecidableEq κ] (l : List (κ × α)) (k : κ) : Option α :=
  (l.find? (fun p => decide (p.1 = k))).map Prod.snd

/-- Update in an insertion-ordered association list (JS `Map.set`):
an existing key keeps its position, a new key is appended. -/
def setA {κ α : Type} [DecidableEq κ] (l : List (κ × α)) (k : κ) (v : α) : List (κ × α) :=
  match l with
  | [] => [(k, v)]
  | p :: rest => if p.1 = k then (k, v) :: rest else p :: setA rest k v

theorem lookupA_nil {κ α : Type} [DecidableEq κ] (k : κ) : lookupA ([] : List (κ × α)) k = none := rfl

theorem lookupA_cons {κ α : Type} [DecidableEq κ] (p : κ × α) (l : List (κ × α)) (k : κ) :
    lookupA (p :: l) k = if p.1 = k then some p.2 else lookupA l k := by
  by_cases h : p.1 = k
  · simp [lookupA, List.find?, h]
  · simp [lookupA, List.find?, h]

theorem lookupA_setA_self {κ α : Type} [DecidableEq κ] (l : List (κ × α)) (k : κ) (v : α) :
    lookupA (setA l k v) k = some v := by
  induction l with
  | nil => simp [setA, lookupA_cons, lookupA_nil]
  | cons p rest ih =>
    by_cases h : p.1 = k
    · simp [setA, h, lookupA_cons]
    · simp [setA, h, lookupA_cons, ih]

theorem lookupA_setA_ne {κ α : Type} [DecidableEq κ] (l : List (κ × α)) (k k' : κ) (v : α)
    (h : k' ≠ k) : lookupA (setA l k v) k' = lookupA l k' := by
  have hks : ¬ (k = k') := fun hh => h hh.symm
  induction l with
  | nil => simp [setA, lookupA_cons, lookupA_nil, hks]
  | cons p rest ih =>
    by_cases hp : p.1 = k
    · have hpk : ¬ (p.1 = k') := by rw [hp]; exact hks
      simp [setA, hp, lookupA_cons, hks, hpk]
    · simp [setA, hp, lookupA_cons, ih]

theorem mem_setA {κ α : Type} [DecidableEq κ] (l : List (κ × α)) (k : κ) (v : α) (x : κ × α)
    (hx : x ∈ setA l k v) : x ∈ l ∨ x = (k, v) := by
  induction l with
  | nil => simp [setA] at hx; simp [hx]
  | cons p rest ih =>
    by_cases hp : p.1 = k
    · simp [setA, hp] at hx
      rcases hx with h | h
      · right; exact h
      · left; exact List.mem_cons_of_mem _ h
    · simp [setA, hp] at hx
      rcases hx with h | h
      · left; simp [h]
      · rcases ih h with h' | h'
        · left; exact List.mem_cons_of_mem _ h'
        · right; exact h'

theorem lookupA_append_some {κ α : Type} [DecidableEq κ] (l1 l2 : List (κ × α)) (k : κ) (a : α)
    (h : lookupA l1 k = some a) : lookupA (l1 ++ l2) k = some a := by
  induction l1 with
  | nil => simp [lookupA_nil] at h
  | cons p rest ih =>
    rw [lookupA_cons] at h
    by_cases hp : p.1 = k
    · simp [hp] at h
      simp [List.cons_append, lookupA_cons, hp, h]
    · simp [hp] at h
      simp [List.cons_append, lookupA_cons, hp, ih h]

theorem lookupA_append_none {κ α : Type} [DecidableEq κ] (l1 l2 : List (κ × α)) (k : κ)
    (h : lookupA l1 k = none) : lookupA (l1 ++ l2) k = lookupA l2 k := by
  induction l1 with
  | nil => simp
  | cons p rest ih =>
    rw [lookupA_cons] at h
    by_cases hp : p.1 = k
    · simp [hp] at h
    · simp [hp] at h
      simp [List.cons_append, lookupA_cons, hp, ih h]

theorem any_key_eq_isSome {κ α : Type} [DecidableEq κ] (l : List (κ × α)) (k : κ) :
    l.any (fun p => decide (p.1 = k)) = (lookupA l k).isSome := by
  induction l with
  | nil => simp [lookupA_nil]
  | cons p rest ih =>
    by_cases hp : p.1 = k
    · simp [lookupA_cons, hp]
    · simp [lookupA_cons, hp, ih]

/-- Deletion from an association list (JS `Map.delete`). -/
def eraseA {κ α : Type} [DecidableEq κ] (l : List (κ × α)) (k : κ) : List (κ × α) :=
  l.filter (fun p => !(decide (p.1 = k)))

theorem lookupA_eraseA_self {κ α : Type} [DecidableEq κ] (l : List (κ × α)) (k : κ) :
    lookupA (eraseA l k) k = none := by
  induction l with
  | nil => rfl
  | cons p rest ih =>
    by_cases hp : p.1 = k
    · simpa [eraseA, List.filter_cons, hp] using ih
    · simpa [eraseA, List.filter_cons, hp, lookupA_cons] using ih

end SyncModel

/-!
Update Queue & Conflict Resolver — src/src/services/updateQueue.service.js.
-/

namespace UpdateQueueService

open SyncModel

/-- The `source` argument of `enqueue`: 'web' or 'sheet'. -/
inductive Source where
| web : Source
| sheet : Source
deriving DecidableEq

/-- One queued update: `{ ma_don_hang, ...convertedUpdates, _source, _timestamp }`
(the `_queuedAt` ISO-string log field carries no behaviour and is omitted). -/
structure Pending where
  maDonHang : String
  fields : List (String × String)
  source : Source
  timestamp : Int
deriving DecidableEq

/-- Result of `enqueue`: the three distinguishable return shapes. The
conflict shape carries `winner: existing.source` — a property the queue
entry never stores (it stores `_source`), read back as the update field
named "source" when the caller supplied one and as undefined (`none`)
otherwise. -/
inductive EnqueueResult where
| ignored : EnqueueResult
| rejected : Option String → EnqueueResult
| accepted : Nat → EnqueueResult
deriving DecidableEq

/-- The `queued` flag of an enqueue result object. -/
def EnqueueResult.queued : EnqueueResult → Bool
| .ignored => false
| .rejected _ => false
| .accepted _ => true

/-- The `conflict` flag of an enqueue result object. -/
def EnqueueResult.conflict : EnqueueResult → Bool
| .ignored => false
| .rejected _ => true
| .accepted _ => false

/-- Mutable state of the singleton service: the pending-update queue,
the loop-protection locks, and the in-progress flag. -/
structure QState where
  queue : List (String × Pending)
  syncLocks : List (String × Int)
  isProcessing : Bool
deriving DecidableEq

/-- The constructor state: empty maps, not processing. -/
def initQState : QState := ⟨[], [], false⟩

/-- The Vietnamese-label to snake_case column mapping used by `enqueue`. -/
def sheetToDbMapping : List (String × String) :=
  [ ("Mã đơn hàng", "ma_don_hang")
  , ("Kết quả Check", "ket_qua_check")
  , ("Trạng thái giao hàng NB", "trang_thai_giao_hang_nb")
  , ("Mã Tracking", "ma_tracking")
  , ("Lý do", "ly_do")
  , ("Trạng thái thu tiền", "trang_thai_thu_tien")
  , ("Ghi chú của VĐ", "ghi_chu_vd")
  , ("Ngày lên đơn", "ngay_len_don")
  , ("Name*", "name")
  , ("Phone*", "phone")
  , ("Add", "address")
  , ("City", "city")
  , ("State", "state")
  , ("khu vực", "khu_vuc")
  , ("Zipcode", "zipcode")
  , ("Mặt hàng", "mat_hang")
  , ("Tên mặt hàng 1", "ten_mat_hang_1")
  , ("Số lượng mặt hàng 1", "so_luong_mat_hang_1")
  , ("Tên mặt hàng 2", "ten_mat_hang_2")
  , ("Số lượng mặt hàng 2", "so_luong_mat_hang_2")
  , ("Quà tặng", "qua_tang")
  , ("Số lượng quà kèm", "so_luong_qua_kem")
  , ("Giá bán", "gia_ban")
  , ("Loại tiền thanh toán", "loai_tien_thanh_toan")
  , ("Tổng tiền VNĐ", "tong_tien_vnd")
  , ("Hình thức thanh toán", "hinh_thuc_thanh_toan")
  , ("Ghi chú", "ghi_chu")
  , ("Ngày đóng hàng", "ngay_dong_hang")
  , ("Trạng thái giao hàng", "trang_thai_giao_hang")
  , ("Thời gian giao dự kiến", "thoi_gian_giao_du_kien")
  , ("Phí ship nội địa Mỹ (usd)", "phi_ship_noi_dia_my")
  , ("Phí xử lý đơn đóng hàng-Lưu kho(usd)", "phi_xu_ly_don")
  , ("GHI CHÚ", "ghi_chu_chung")
  , ("Nhân viên Sale", "nhan_vien_sale")
  , ("NV Vận đơn", "nv_van_don")
  , ("Đơn vị vận chuyển", "don_vi_van_chuyen")
  , ("Số tiền của đơn hàng đã về TK Cty", "so_tien_ve_tk")
  , ("Kế toán xác nhận thu tiền về", "ke_toan_xac_nhan")
  , ("Ngày Kế toán đối soát với FFM lần 2", "ngay_doi_soat") ]

/-- `const dbKey = sheetToDbMapping[key] || key` applied to every field. -/
def convertFields (updates : List (String × String)) : List (String × String) :=
  updates.map (fun p => ((lookupA sheetToDbMapping p.1).getD p.1, p.2))

/-- Loop protection predicate: an external ('sheet') enqueue hits an
active lock when `syncLocks` holds an expiry strictly after `now`. -/
def suppressedCheck (s : QState) (maDonHang : String) (source : Source) (now : Int) : Bool :=
  decide (source = Source.sheet) &&
    (match lookupA s.syncLocks maDonHang with
     | some lockExpiry => decide (lockExpiry > now)
     | none => false)

/-- The acceptance path of `enqueue`: store the converted update and
report `{queued:true, conflict:false, queueSize}`. -/
def pushPending (s : QState) (maDonHang : String) (updates : List (String × String))
    (source : Source) (now : Int) : EnqueueResult × QState :=
  let q := setA s.queue maDonHang ⟨maDonHang, convertFields updates, source, now⟩
  (.accepted q.length, { s with queue := q })

/-- The JS comparison `v > n` where `v` is a read object property: an
absent property is `undefined` and compares false; a string value is
coerced to a number (modelled for integer-formatted strings, with every
non-numeric string behaving as NaN, which also compares false). -/
def jsNumGt (v : Option String) (n : Int) : Bool :=
  match v with
  | none => false
  | some str =>
    match str.toInt? with
    | some m => decide (m > n)
    | none => false

/-- `enqueue(maDonHang, updates, source)` with `timestamp = Date.now()`
passed explicitly as `now`. The conflict check reads `existing.timestamp`
(line 124), but the queue entry stores the enqueue time under
`_timestamp` (line 141): the property read therefore falls through to
the spread update fields — it is the field literally named "timestamp"
when the caller supplied one, and undefined otherwise, so the rejection
branch never fires on ordinary updates. `existing.source`, read for
`winner`, is likewise never stored (`_source` is). -/
def enqueue (s : QState) (maDonHang : String) (updates : List (String × String))
    (source : Source) (now : Int) : EnqueueResult × QState :=
  if suppressedCheck s maDonHang source now then (.ignored, s)
  else
    match lookupA s.queue maDonHang with
    | some existing =>
      if jsNumGt (lookupA existing.fields ("timestamp")) now then
        (.rejected (lookupA existing.fields ("source")), s)
      else pushPending s maDonHang updates source now
    | none => pushPending s maDonHang updates source now

/-- Outcome of one `databaseService.upsertOrder` call during a flush:
a row was returned, the write was skipped as stale (null), or it threw. -/
inductive DbOutcome where
| applied : DbOutcome
| skipped : DbOutcome
| errored : DbOutcome
deriving DecidableEq

/-- The external collaborators of one flush tick: the store's outcome per
record key and whether the sheet mirror write succeeds per record key. -/
structure FlushEnv where
  dbOutcome : String → DbOutcome
  sheetOk : String → Bool

/-- An `enqueue` call arriving while a flush is awaiting I/O. -/
structure EnqCall where
  maDonHang : String
  updates : List (String × String)
  source : Source
  now : Int

/-- The state right after `processQueue` snapshots and clears the queue
and raises the in-progress flag. -/
def clearedState (s : QState) : QState := { s with queue := [], isProcessing := true }

/-- Apply a batch of concurrent `enqueue` calls in arrival order. -/
def applyEnqueues (s : QState) (calls : List EnqCall) : QState :=
  calls.foldl (fun st c => (enqueue st c.maDonHang c.updates c.source c.now).2) s

/-- The per-item loop of `processQueue`: upsert to the store, then for
web-sourced applied writes mirror to the sheet and, only when the mirror
write succeeded, arm a 10-second suppression lock. A store error aborts
the loop (the surrounding catch takes over). Returns the lock map, the
store writes that returned a row, and whether a store write threw. -/
def runItems (items : List Pending) (env : FlushEnv) (now : Int)
    (locks : List (String × Int)) : List (String × Int) × List Pending × Bool :=
  match items with
  | [] => (locks, [], false)
  | p :: rest =>
    match env.dbOutcome p.maDonHang with
    | .errored => (locks, [], true)
    | .skipped => runItems rest env now locks
    | .applied =>
      let locks' :=
        if decide (p.source = Source.web) then
          (if env.sheetOk p.maDonHang then setA locks p.maDonHang (now + 10000) else locks)
        else locks
      let res := runItems rest env now locks'
      (res.1, p :: res.2.1, res.2.2)

/-- The catch block's re-queue loop: each snapshot entry is put back only
when the live queue has no entry for its key. -/
def remerge (toProcess queue : List (String × Pending)) : List (String × Pending) :=
  match toProcess with
  | [] => queue
  | kv :: rest =>
    remerge rest (if queue.any (fun p => decide (p.1 = kv.1)) then queue else queue ++ [kv])

/-- Summary of one `processQueue` call. -/
structure FlushReport where
  ran : Bool
  snapshot : List (String × Pending)
  dbWrites : List Pending
  threw : Bool
deriving DecidableEq

/-- The body of a flush tick that actually runs: snapshot and clear the
queue, let the concurrent enqueues land on the cleared queue, process the
snapshot, and on a store error re-merge the snapshot into the live queue.
The finally block lowers the in-progress flag. -/
def flushRun (s : QState) (env : FlushEnv) (during : List EnqCall) (now : Int) :
    QState × FlushReport :=
  ({ queue :=
       if (runItems (s.queue.map Prod.snd) env now
             (applyEnqueues (clearedState s) during).syncLocks).2.2 then
         remerge s.queue (applyEnqueues (clearedState s) during).queue
       else (applyEnqueues (clearedState s) during).queue,
     syncLocks :=
       (runItems (s.queue.map Prod.snd) env now
         (applyEnqueues (clearedState s) during).syncLocks).1,
     isProcessing := false },
   ⟨true, s.queue,
    (runItems (s.queue.map Prod.snd) env now
      (applyEnqueues (clearedState s) during).syncLocks).2.1,
    (runItems (s.queue.map Prod.snd) env now
      (applyEnqueues (clearedState s) during).syncLocks).2.2⟩)

/-- `processQueue`: a tick that finds a flush in progress, or an empty
queue, returns at once without touching any state. -/
def processQueue (s : QState) (env : FlushEnv) (during : List EnqCall) (now : Int) :
    QState × FlushReport :=
  if s.isProcessing || s.queue.isEmpty then (s, ⟨false, [], [], false⟩)
  else flushRun s env during now

theorem enqueue_keeps_syncLocks (s : QState) (k : String) (u : List (String × String))
    (src : Source) (now : Int) : (enqueue s k u src now).2.syncLocks = s.syncLocks := by
  unfold enqueue pushPending
  split
  · rfl
  · split
    · split
      · rfl
      · rfl
    · rfl

theorem suppressedCheck_of_locks_eq (s1 s2 : QState) (k : String) (src : Source) (now : Int)
    (h : s1.syncLocks = s2.syncLocks) :
    suppressedCheck s1 k src now = suppressedCheck s2 k src now := by
  unfold suppressedCheck
  rw [h]

theorem enqueue_of_none (s : QState) (k : String) (u : List (String × String))
    (src : Source) (now : Int)
    (hsup : suppressedCheck s k src now = false) (hq : lookupA s.queue k = none) :
    enqueue s k u src now = pushPending s k u src now := by
  unfold enqueue
  rw [hsup, hq]
  simp

theorem enqueue_of_some (s : QState) (k : String) (u : List (String × String))
    (src : Source) (now : Int) (p : Pending)
    (hsup : suppressedCheck s k src now = false) (hq : lookupA s.queue k = some p) :
    enqueue s k u src now =
      if jsNumGt (lookupA p.fields ("timestamp")) now then
        (EnqueueResult.rejected (lookupA p.fields ("source")), s)
      else pushPending s k u src now := by
  unfold enqueue
  rw [hsup, hq]
  simp

/-- C2: an external ('sheet') enqueue for a key whose suppression lock has
not expired (`lockExpiry > Date.now()`) is a silent no-op: the verdict is
`{queued:false, conflict:false}` and the whole service state — in
particular the pending-update queue — is left untouched. -/
theorem enqueue_echo_suppression (s : QState) (k : String) (u : List (String × String))
    (now e : Int) (hlock : lookupA s.syncLocks k = some e) (hactive : now < e) :
    (enqueue s k u Source.sheet now).1.queued = false ∧
    (enqueue s k u Source.sheet now).1.conflict = false ∧
    (enqueue s k u Source.sheet now).2 = s := by
  have hs : suppressedCheck s k Source.sheet now = true := by
    simp [suppressedCheck, hlock]
    exact hactive
  simp [enqueue, hs, EnqueueResult.queued, EnqueueResult.conflict]

/-- C2 witness: a concrete suppressed enqueue. -/
theorem enqueue_echo_suppression_witness :
    lookupA (QState.mk [] [(("DH001"), (50 : Int))] false).syncLocks ("DH001") = some 50 ∧
    (5 : Int) < 50 ∧
    ((enqueue (QState.mk [] [(("DH001"), (50 : Int))] false) ("DH001")
        [(("Kết quả Check"), ("OK"))] Source.sheet 5).1.queued = false ∧
     (enqueue (QState.mk [] [(("DH001"), (50 : Int))] false) ("DH001")
        [(("Kết quả Check"), ("OK"))] Source.sheet 5).1.conflict = false ∧
     (enqueue (QState.mk [] [(("DH001"), (50 : Int))] false) ("DH001")
        [(("Kết quả Check"), ("OK"))] Source.sheet 5).2 =
       QState.mk [] [(("DH001"), (50 : Int))] false) :=
  ⟨by decide, by decide,
   enqueue_echo_suppression (QState.mk [] [(("DH001"), (50 : Int))] false) ("DH001")
     [(("Kết quả Check"), ("OK"))] 5 50 (by decide) (by decide)⟩

/-- C1: the claimed last-write-wins conflict verdict is dead code. The
stored queue entry has `_timestamp` and `_source` (line 141), while the
conflict check reads `existing.timestamp` and `existing.source` (lines
124, 129) — properties that are never stored — so the comparison is
`undefined > timestamp`, always false, and a second-arriving call always
replaces the queued entry. Concretely: an update enqueued at
`Date.now() = 200` is replaced by a second call arriving at
`Date.now() = 150`; the earlier-timestamped call returns
`{queued:true, conflict:false}`, no call ever receives
`{queued:false, conflict:true, winner}`, and the queue ends holding the
earlier-timestamped update — against the claim (and the code's own
comments at lines 13 and 123) on both the verdict and the queue content. -/
theorem enqueue_lww_dead_conflict :
    ((150 : Int) ≠ 200) ∧
    (enqueue initQState ("DH002") [(("gia_ban"), ("10"))] Source.web 200).1.queued = true ∧
    ((enqueue (enqueue initQState ("DH002") [(("gia_ban"), ("10"))] Source.web 200).2
        ("DH002") [(("gia_ban"), ("20"))] Source.web 150).1.queued = true ∧
     (enqueue (enqueue initQState ("DH002") [(("gia_ban"), ("10"))] Source.web 200).2
        ("DH002") [(("gia_ban"), ("20"))] Source.web 150).1.conflict = false) ∧
    lookupA (enqueue (enqueue initQState ("DH002") [(("gia_ban"), ("10"))] Source.web 200).2
        ("DH002") [(("gia_ban"), ("20"))] Source.web 150).2.queue ("DH002") =
      some (Pending.mk ("DH002") [(("gia_ban"), ("20"))] Source.web 150) := by
  refine ⟨by decide, by decide, ⟨by decide, by decide⟩, by decide⟩

/-- C8: a flush tick that finds the in-progress flag raised returns at
once, leaving every part of the state untouched and processing nothing
(the tick is skipped, not queued); a tick that runs snapshots exactly the
queue contents, processes that snapshot, lowers the flag at the end, and
— absent concurrent enqueues and store errors — leaves the queue empty,
having cleared it before processing. -/
theorem processQueue_no_concurrent_flush (s : QState) (env : FlushEnv)
    (during : List EnqCall) (now : Int) :
    (s.isProcessing = true →
      processQueue s env during now = (s, FlushReport.mk false [] [] false)) ∧
    (s.isProcessing = false → s.queue ≠ [] →
      ((processQueue s env during now).2.ran = true ∧
       (processQueue s env during now).2.snapshot = s.queue ∧
       (processQueue s env during now).1.isProcessing = false ∧
       (during = [] → (processQueue s env during now).2.threw = false →
         (processQueue s env during now).1.queue = []))) := by
  constructor
  · intro h
    simp [processQueue, h]
  · intro h hne
    have hempty : s.queue.isEmpty = false := by
      cases hq : s.queue with
      | nil => exact absurd hq hne
      | cons a t => rfl
    have hcond : (s.isProcessing || s.queue.isEmpty) = false := by
      rw [h, hempty]; rfl
    refine ⟨?_, ?_, ?_, ?_⟩
    · simp [processQueue, hcond, flushRun]
    · simp [processQueue, hcond, flushRun]
    · simp [processQueue, hcond, flushRun]
    · intro hdur hthrew
      rw [hdur] at hthrew ⊢
      simp only [processQueue, hcond, Bool.false_eq_true, if_false, flushRun,
        applyEnqueues, List.foldl_nil] at hthrew ⊢
      rw [hthrew]
      rfl

/-- C8 witness: a skipped tick on a busy state, and a clean tick on a
one-element queue that ends with an empty queue. -/
theorem processQueue_no_concurrent_flush_witness :
    ((QState.mk [(("DH001"), Pending.mk ("DH001") [] Source.web 1)] [] true).isProcessing = true →
      processQueue (QState.mk [(("DH001"), Pending.mk ("DH001") [] Source.web 1)] [] true)
          (FlushEnv.mk (fun _ => DbOutcome.applied) (fun _ => true)) [] 7 =
        (QState.mk [(("DH001"), Pending.mk ("DH001") [] Source.web 1)] [] true,
         FlushReport.mk false [] [] false)) ∧
    ((QState.mk [(("DH001"), Pending.mk ("DH001") [] Source.web 1)] [] true).isProcessing = false →
      (QState.mk [(("DH001"), Pending.mk ("DH001") [] Source.web 1)] [] true).queue ≠ [] →
      ((processQueue (QState.mk [(("DH001"), Pending.mk ("DH001") [] Source.web 1)] [] true)
          (FlushEnv.mk (fun _ => DbOutcome.applied) (fun _ => true)) [] 7).2.ran = true ∧
       (processQueue (QState.mk [(("DH001"), Pending.mk ("DH001") [] Source.web 1)] [] true)
          (FlushEnv.mk (fun _ => DbOutcome.applied) (fun _ => true)) [] 7).2.snapshot =
         (QState.mk [(("DH001"), Pending.mk ("DH001") [] Source.web 1)] [] true).queue ∧
       (processQueue (QState.mk [(("DH001"), Pending.mk ("DH001") [] Source.web 1)] [] true)
          (FlushEnv.mk (fun _ => DbOutcome.applied) (fun _ => true)) [] 7).1.isProcessing = false ∧
       (([] : List EnqCall) = [] →
         (processQueue (QState.mk [(("DH001"), Pending.mk ("DH001") [] Source.web 1)] [] true)
            (FlushEnv.mk (fun _ => DbOutcome.applied) (fun _ => true)) [] 7).2.threw = false →
         (processQueue (QState.mk [(("DH001"), Pending.mk ("DH001") [] Source.web 1)] [] true)
            (FlushEnv.mk (fun _ => DbOutcome.applied) (fun _ => true)) [] 7).1.queue = []))) :=
  processQueue_no_concurrent_flush
    (QState.mk [(("DH001"), Pending.mk ("DH001") [] Source.web 1)] [] true)
    (FlushEnv.mk (fun _ => DbOutcome.applied) (fun _ => true)) [] 7

end UpdateQueueService

/-!
Record Store Adapter — `DatabaseService.upsertOrder` (PostgreSQL upsert
with a source-aware freshness policy). The `orders` table is modelled as
an association list keyed by the `ma_don_hang` value; a row keeps its
business columns and its `updated_at` freshness timestamp separately.
The generated SQL's ON CONFLICT update writes the EXCLUDED values of
every update column and sets `updated_at = NOW()`; for 'sheet'-sourced
calls it is guarded by
`WHERE orders.updated_at <= EXCLUDED.updated_at OR EXCLUDED.updated_at IS NULL`,
where `EXCLUDED.updated_at` is the incoming row's `updated_at` value —
the caller-supplied field when present, otherwise the column default
`NOW()`. `context.timestamp` is accepted by the source function but never
read, which the model mirrors.
-/

namespace DatabaseService

open SyncModel

/-- A SQL scalar value. -/
inductive SqlVal where
| null : SqlVal
| int : Int → SqlVal
| text : String → SqlVal
deriving DecidableEq

/-- Reading a timestamp out of a SQL value: NULL and non-numeric values
carry none (no call site ever supplies `updated_at` at all). -/
def timestampOf : SqlVal → Option Int
| .int n => some n
| _ => none

/-- The regex `^[a-zA-Z_][a-zA-Z0-9_]*$` (ASCII identifier check). -/
def isValidSqlIdent (s : String) : Bool :=
  match s.data with
  | [] => false
  | c :: rest => (c.isAlpha || c == '_') && rest.all (fun d => d.isAlphanum || d == '_')

/-- `col.startsWith('_')`, computed on the character list. -/
def startsWithUnderscore (s : String) : Bool :=
  match s.data with
  | c :: _ => c == '_'
  | [] => false

/-- The column filter of `upsertOrder`: no internal underscore-prefixed
field, and the name must be a valid SQL identifier. -/
def isValidColumn (c : String) : Bool :=
  (!(startsWithUnderscore c)) && isValidSqlIdent c

/-- A stored row: business columns plus the `updated_at` freshness
timestamp (nullable in the schema). -/
structure Row where
  cols : List (String × SqlVal)
  updatedAt : Option Int
deriving DecidableEq

/-- The `context` argument of `upsertOrder`. -/
structure UpsertCtx where
  source : String
  timestamp : Option Int
deriving DecidableEq

/-- `validColumns`: the fields of `orderData` that survive the filter. -/
def validColumnsOf (orderData : List (String × SqlVal)) : List (String × SqlVal) :=
  orderData.filter (fun p => isValidColumn p.1)

/-- `updateColumns`: the valid columns other than the primary key. -/
def updateColumnsOf (orderData : List (String × SqlVal)) : List (String × SqlVal) :=
  (validColumnsOf orderData).filter (fun p => !(decide (p.1 = ("ma_don_hang"))))

/-- `EXCLUDED.updated_at`: the supplied `updated_at` value when the
insert column list contains one, otherwise the column default `NOW()`. -/
def excludedUpdatedAtOf (orderData : List (String × SqlVal)) (now : Int) : Option Int :=
  match lookupA (validColumnsOf orderData) ("updated_at") with
  | some v => timestampOf v
  | none => some now

/-- The ON CONFLICT WHERE clause. Only 'sheet'-sourced upserts are
guarded; under SQL three-valued logic `orders.updated_at <=
EXCLUDED.updated_at` holds only when both sides are non-null. -/
def guardPasses (ctx : UpsertCtx) (excluded : Option Int) (old : Row) : Bool :=
  if decide (ctx.source = ("sheet")) then
    (match old.updatedAt, excluded with
     | some a, some b => decide (a ≤ b)
     | _, _ => false) || excluded.isNone
  else true

/-- Writing `EXCLUDED` values over an existing row's columns. -/
def applyUpdates (cols ups : List (String × SqlVal)) : List (String × SqlVal) :=
  ups.foldl (fun acc p => setA acc p.1 p.2) cols

/-- The row created by the INSERT arm (`updated_at` is kept in the
dedicated field, not among the business columns). -/
def insertRowOf (orderData : List (String × SqlVal)) (now : Int) : Row :=
  ⟨(validColumnsOf orderData).filter (fun p => !(decide (p.1 = ("updated_at")))),
   excludedUpdatedAtOf orderData now⟩

/-- The row produced by the DO UPDATE arm: every update column is
overwritten with its EXCLUDED value and `updated_at` is set to NOW(). -/
def updatedRowOf (old : Row) (orderData : List (String × SqlVal)) (now : Int) : Row :=
  ⟨applyUpdates old.cols
     ((updateColumnsOf orderData).filter (fun p => !(decide (p.1 = ("updated_at"))))),
   some now⟩

/-- Result of one `upsertOrder` call: a returned row or null, or a
thrown SQL error. -/
inductive UpsertResult where
| ok : Option Row → UpsertResult
| error : UpsertResult
deriving DecidableEq

/-- `upsertOrder(orderData, context)` at wall-clock time `now`. Returns
`.ok none` for the no-valid-column no-ops and for a guarded write whose
WHERE clause matched no row; `.error` models the SQL error thrown when
`ma_don_hang` is absent (NOT NULL violation), which `upsertOrder`
rethrows. -/
def upsertOrder (table : List (SqlVal × Row)) (orderData : List (String × SqlVal))
    (ctx : UpsertCtx) (now : Int) : UpsertResult × List (SqlVal × Row) :=
  if (validColumnsOf orderData).isEmpty then (.ok none, table)
  else if (updateColumnsOf orderData).isEmpty then (.ok none, table)
  else
    match lookupA (validColumnsOf orderData) ("ma_don_hang") with
    | none => (.error, table)
    | some keyVal =>
      match lookupA table keyVal with
      | none =>
        (.ok (some (insertRowOf orderData now)),
         table ++ [(keyVal, insertRowOf orderData now)])
      | some old =>
        if guardPasses ctx (excludedUpdatedAtOf orderData now) old then
          (.ok (some (updatedRowOf old orderData now)),
           setA table keyVal (updatedRowOf old orderData now))
        else (.ok none, table)

theorem mem_applyUpdates (cols ups : List (String × SqlVal)) (x : String × SqlVal)
    (hx : x ∈ applyUpdates cols ups) : x ∈ cols ∨ x ∈ ups := by
  induction ups generalizing cols with
  | nil => exact Or.inl hx
  | cons u rest ih =>
    rcases ih (setA cols u.1 u.2) hx with h | h
    · rcases mem_setA cols u.1 u.2 x h with h' | h'
      · exact Or.inl h'
      · right
        rw [h']
        exact List.mem_cons_self _ _
    · exact Or.inr (List.mem_cons_of_mem _ h)

theorem mem_validColumnsOf (orderData : List (String × SqlVal)) (x : String × SqlVal)
    (hx : x ∈ validColumnsOf orderData) : isValidColumn x.1 = true :=
  (List.mem_filter.mp hx).2

/-- C4: the source claims the freshness-guarded ('sheet') upsert skips an
incoming update whose timestamp is older than the stored record's
freshness timestamp. In the code the guard compares the stored
`updated_at` against `EXCLUDED.updated_at`, which in the sync flow is the
column default `NOW()` — `context.timestamp` is never read — so a stale
sheet update still overwrites a newer record. Concretely: the stored row
has freshness 100, the incoming sheet update carries timestamp 50, the
flush happens at clock 200, and the write lands (returning the updated
row) instead of being skipped. The final conjunct shows `upsertOrder` is
entirely independent of `context.timestamp`. -/
theorem upsertOrder_stale_guard_bug :
    (upsertOrder
        [(SqlVal.text ("DH001"), Row.mk [(("ket_qua_check"), SqlVal.text ("old"))] (some 100))]
        [(("ma_don_hang"), SqlVal.text ("DH001")), (("ket_qua_check"), SqlVal.text ("stale"))]
        (UpsertCtx.mk ("sheet") (some 50)) 200 =
      (UpsertResult.ok (some (Row.mk [(("ket_qua_check"), SqlVal.text ("stale"))] (some 200))),
       [(SqlVal.text ("DH001"),
         Row.mk [(("ket_qua_check"), SqlVal.text ("stale"))] (some 200))])) ∧
    ((50 : Int) < 100) ∧
    (∀ (table : List (SqlVal × Row)) (orderData : List (String × SqlVal)) (src : String)
        (t1 t2 : Option Int) (now : Int),
      upsertOrder table orderData (UpsertCtx.mk src t1) now =
        upsertOrder table orderData (UpsertCtx.mk src t2) now) := by
  refine ⟨by decide, by decide, ?_⟩
  intro table orderData src t1 t2 now
  rfl

/-- C9: `upsertOrder` drops every field whose name fails the SQL
identifier convention and every underscore-prefixed internal field
before touching storage — any column a call adds to the table that was
not already stored is a valid one — and a call whose valid columns
contain nothing beyond the primary key returns null (`.ok none`, a
logged warning rather than an error) and leaves the table untouched. -/
theorem upsertOrder_column_validation (table : List (SqlVal × Row))
    (orderData : List (String × SqlVal)) (ctx : UpsertCtx) (now : Int) :
    ((updateColumnsOf orderData).isEmpty = true →
      upsertOrder table orderData ctx now = (UpsertResult.ok none, table)) ∧
    (∀ (k : SqlVal) (r : Row),
      lookupA (upsertOrder table orderData ctx now).2 k = some r →
      ∀ cv ∈ r.cols,
        (∃ r0 : Row, lookupA table k = some r0 ∧ cv ∈ r0.cols) ∨
          isValidColumn cv.1 = true) := by
  constructor
  · intro h
    by_cases hv : (validColumnsOf orderData).isEmpty
    · simp [upsertOrder, hv]
    · simp [upsertOrder, hv, h]
  · intro k r hr cv hcv
    unfold upsertOrder at hr
    split at hr
    · exact Or.inl ⟨r, hr, hcv⟩
    · split at hr
      · exact Or.inl ⟨r, hr, hcv⟩
      · split at hr
        · exact Or.inl ⟨r, hr, hcv⟩
        · rename_i keyVal hkeyVal
          split at hr
          · rename_i hnone
            by_cases hk : lookupA table k = none
            · rw [lookupA_append_none table _ k hk] at hr
              rw [lookupA_cons] at hr
              by_cases hkk : keyVal = k
              · rw [if_pos hkk] at hr
                have hrow : insertRowOf orderData now = r := Option.some.inj hr
                right
                rw [← hrow] at hcv
                have : cv ∈ validColumnsOf orderData :=
                  (List.mem_filter.mp hcv).1
                exact mem_validColumnsOf orderData cv this
              · rw [if_neg hkk] at hr
                rw [lookupA_nil] at hr
                exact absurd hr (by simp)
            · rcases Option.ne_none_iff_exists'.mp hk with ⟨r0, hr0⟩
              rw [lookupA_append_some table _ k r0 hr0] at hr
              have : r0 = r := Option.some.inj hr
              exact Or.inl ⟨r0, hr0, this ▸ hcv⟩
          · rename_i old hold
            split at hr
            · by_cases hkk : k = keyVal
              · rw [hkk] at hr
                rw [lookupA_setA_self] at hr
                have hrow : updatedRowOf old orderData now = r := Option.some.inj hr
                rw [← hrow] at hcv
                rcases mem_applyUpdates old.cols _ cv hcv with h | h
                · exact Or.inl ⟨old, hkk ▸ hold, h⟩
                · right
                  have h1 : cv ∈ updateColumnsOf orderData := (List.mem_filter.mp h).1
                  have h2 : cv ∈ validColumnsOf orderData := (List.mem_filter.mp h1).1
                  exact mem_validColumnsOf orderData cv h2
              · rw [lookupA_setA_ne table keyVal k _ hkk] at hr
                exact Or.inl ⟨r, hr, hcv⟩
            · exact Or.inl ⟨r, hr, hcv⟩

/-- C9 witness: an upsert whose only valid column is the primary key
(one underscore-prefixed field, one field with a space in its name) is a
no-op returning null on the empty table. -/
theorem upsertOrder_column_validation_witness :
    (updateColumnsOf
        [(("ma_don_hang"), SqlVal.text ("DH001")), (("_secret"), SqlVal.int 1),
         (("bad col"), SqlVal.int 2)]).isEmpty = true ∧
    upsertOrder []
        [(("ma_don_hang"), SqlVal.text ("DH001")), (("_secret"), SqlVal.int 1),
         (("bad col"), SqlVal.int 2)]
        (UpsertCtx.mk ("web") none) 9 = (UpsertResult.ok none, []) :=
  ⟨by decide,
   (upsertOrder_column_validation []
       [(("ma_don_hang"), SqlVal.text ("DH001")), (("_secret"), SqlVal.int 1),
        (("bad col"), SqlVal.int 2)]
       (UpsertCtx.mk ("web") none) 9).1 (by decide)⟩

end DatabaseService

/-!
Change Version Tracker — `SyncQueueService` (src, class SyncQueueService):
per-row version map, per-sheet pending-change ring buffer of capacity
100, `processUpdate` worker, `recordExternalChange`, `getChangesSince`
and the periodic `cleanup`. Versions are `Date.now()` values, modelled as
the explicit clock argument `now`.
-/

namespace SyncQueueService

open SyncModel

/-- One buffered change: the payload plus `_version` and `_external`
(`_updatedAt`, an ISO-string duplicate of the version, is omitted). -/
structure Change where
  data : List (String × String)
  version : Int
  external : Bool
deriving DecidableEq

/-- Service state: `versionMap`, `lastChangeTimestamp`, `pendingChanges`
and the `processed`/`conflicts` counters (the `errors` counter is only
reachable through a thrown callback and stays 0 in the model). -/
structure SyncState where
  versionMap : List (String × Int)
  lastChangeTimestamp : List (String × Int)
  pendingChanges : List (String × List Change)
  processed : Nat
  conflicts : Nat
deriving DecidableEq

/-- The constructor state. -/
def initSyncState : SyncState := ⟨[], [], [], 0, 0⟩

/-- JS truthiness of a looked-up string value (`undefined` and the empty
string are falsy). -/
def truthyStr : Option String → Bool
| some v => !(v == (""))
| none => false

/-- `getPrimaryKey(updateData)`: "unknown" for an empty object, else the
first truthy well-known key name, else the first key. -/
def getPrimaryKey (updateData : List (String × String)) : String :=
  match updateData with
  | [] => ("unknown")
  | p :: _ =>
    match ([("MaVanDon"), ("id"), ("ID"), ("primaryKey"), ("key")].find?
        (fun n => truthyStr (lookupA updateData n))) with
    | some n => n ++ (":") ++ ((lookupA updateData n).getD (""))
    | none => p.1 ++ (":") ++ p.2

/-- `getVersion(sheetName, primaryKey)` with default 0. -/
def getVersion (st : SyncState) (sheetName primaryKey : String) : Int :=
  (lookupA st.versionMap (sheetName ++ (":") ++ primaryKey)).getD 0

/-- `setVersion(sheetName, primaryKey, version)`. -/
def setVersion (st : SyncState) (sheetName primaryKey : String) (version : Int) : SyncState :=
  { st with
    versionMap := setA st.versionMap (sheetName ++ (":") ++ primaryKey) version,
    lastChangeTimestamp := setA st.lastChangeTimestamp sheetName version }

/-- `addPendingChange(sheetName, change)`: when the buffer already holds
100 or more entries the oldest is shifted off before the push. -/
def addPendingChange (st : SyncState) (sheetName : String) (c : Change) : SyncState :=
  { st with
    pendingChanges := setA st.pendingChanges sheetName
                        ((if ((lookupA st.pendingChanges sheetName).getD []).length ≥ 100 then
                            ((lookupA st.pendingChanges sheetName).getD []).tail
                          else ((lookupA st.pendingChanges sheetName).getD [])) ++ [c]) }

/-- One task pushed to the serialized worker queue. -/
structure SyncTask where
  sheetName : String
  updateData : List (String × String)
  clientVersion : Option Int
  enqueuedAt : Int
deriving DecidableEq

/-- JS truthiness of the optional client version (null and 0 are falsy). -/
def truthyInt : Option Int → Bool
| some v => !(v == 0)
| none => false

/-- The two resolved shapes of `processUpdate`. -/
inductive ProcResult where
| conflictRes : Int → ProcResult
| success : Int → ProcResult
deriving DecidableEq

/-- The worker body `processUpdate(task)` at clock `now`:
a truthy stale `clientVersion` resolves as a conflict, otherwise the new
version is `Date.now()`, recorded in the version map and the buffer. -/
def processUpdate (st : SyncState) (task : SyncTask) (now : Int) : ProcResult × SyncState :=
  if truthyInt task.clientVersion &&
      decide (getVersion st task.sheetName (getPrimaryKey task.updateData) >
        task.clientVersion.getD 0) then
    (.conflictRes (getVersion st task.sheetName (getPrimaryKey task.updateData)),
     { st with conflicts := st.conflicts + 1 })
  else
    (.success now,
     { addPendingChange
         (setVersion st task.sheetName (getPrimaryKey task.updateData) now)
         task.sheetName ⟨task.updateData, now, false⟩ with
       processed := st.processed + 1 })

/-- `recordExternalChange(sheetName, changeData)` at clock `now`. -/
def recordExternalChange (st : SyncState) (sheetName : String)
    (changeData : List (String × String)) (now : Int) : Int × SyncState :=
  (now,
   addPendingChange
     (setVersion st sheetName (getPrimaryKey changeData) now)
     sheetName ⟨changeData, now, true⟩)

/-- The pending-change buffer of one sheet. -/
def bufOf (st : SyncState) (sheetName : String) : List Change :=
  (lookupA st.pendingChanges sheetName).getD []

/-- `getChangesSince(sheetName, sinceTimestamp)`. -/
def getChangesSince (st : SyncState) (sheetName : String) (sinceTimestamp : Int) : List Change :=
  (bufOf st sheetName).filter (fun c => decide (c.version > sinceTimestamp))

/-- `getLastChangeTimestamp(sheetName)`. -/
def getLastChangeTimestamp (st : SyncState) (sheetName : String) : Int :=
  (lookupA st.lastChangeTimestamp sheetName).getD 0

/-- `cleanup(maxAgeMs)` at clock `now`: drop buffered changes at or
before the cutoff. -/
def cleanup (st : SyncState) (now maxAgeMs : Int) : SyncState :=
  { st with
    pendingChanges := st.pendingChanges.map
                        (fun p => (p.1, p.2.filter (fun c => decide (c.version > now - maxAgeMs)))) }

/-- The operations that touch the tracker state, each carrying the
`Date.now()` value it observes. -/
inductive SyncOp where
| recExt : String → List (String × String) → Int → SyncOp
| proc : SyncTask → Int → SyncOp
| clean : Int → Int → SyncOp

/-- The clock value an operation observes. -/
def opNow : SyncOp → Int
| .recExt _ _ n => n
| .proc _ n => n
| .clean n _ => n

/-- State effect of one operation. -/
def applySyncOp (st : SyncState) (op : SyncOp) : SyncState :=
  match op with
  | .recExt sheet data n => (recordExternalChange st sheet data n).2
  | .proc task n => (processUpdate st task n).2
  | .clean n maxAge => cleanup st n maxAge

/-- A tracker state reached from startup by a sequence of operations. -/
def runSyncOps (ops : List SyncOp) : SyncState := ops.foldl applySyncOp initSyncState

/-- Buffer invariant: ascending versions, at most 100 entries, all
versions at most `b`. -/
def BufInv (st : SyncState) (b : Int) : Prop :=
  ∀ sheet : String,
    (bufOf st sheet).Pairwise (fun x y => x.version ≤ y.version) ∧
    (bufOf st sheet).length ≤ 100 ∧
    ∀ c ∈ bufOf st sheet, c.version ≤ b

theorem lookupA_map_filterVal (l : List (String × List Change)) (k : String)
    (pred : Change → Bool) :
    lookupA (l.map (fun p => (p.1, p.2.filter pred))) k =
      (lookupA l k).map (fun x => x.filter pred) := by
  induction l with
  | nil => simp [lookupA_nil]
  | cons p rest ih =>
    by_cases hp : p.1 = k
    · simp [List.map_cons, lookupA_cons, hp]
    · simp [List.map_cons, lookupA_cons, hp, ih]

theorem bufOf_addPendingChange_self (st : SyncState) (sheet : String) (c : Change) :
    bufOf (addPendingChange st sheet c) sheet =
      (if (bufOf st sheet).length ≥ 100 then (bufOf st sheet).tail else bufOf st sheet)
        ++ [c] := by
  simp [bufOf, addPendingChange, lookupA_setA_self]

theorem bufOf_addPendingChange_ne (st : SyncState) (sheet sheet' : String) (c : Change)
    (h : sheet' ≠ sheet) :
    bufOf (addPendingChange st sheet c) sheet' = bufOf st sheet' := by
  simp [bufOf, addPendingChange, lookupA_setA_ne _ _ _ _ h]

theorem bufOf_setVersion (st : SyncState) (sheet pk : String) (v : Int) (sheet' : String) :
    bufOf (setVersion st sheet pk v) sheet' = bufOf st sheet' := rfl

theorem bufOf_cleanup (st : SyncState) (now maxAge : Int) (sheet : String) :
    bufOf (cleanup st now maxAge) sheet =
      (bufOf st sheet).filter (fun c => decide (c.version > now - maxAge)) := by
  unfold bufOf cleanup
  show (lookupA (st.pendingChanges.map
      (fun p => (p.1, p.2.filter (fun c => decide (c.version > now - maxAge))))) sheet).getD [] =
    ((lookupA st.pendingChanges sheet).getD []).filter
      (fun c => decide (c.version > now - maxAge))
  rw [lookupA_map_filterVal st.pendingChanges sheet (fun c => decide (c.version > now - maxAge))]
  cases lookupA st.pendingChanges sheet with
  | none => rfl
  | some l => rfl

theorem addPendingChange_inv (st : SyncState) (b : Int) (sheet : String) (c : Change) (n : Int)
    (hInv : BufInv st b) (hb : b ≤ n) (hc : c.version = n) :
    BufInv (addPendingChange st sheet c) n := by
  intro sh
  obtain ⟨hpw, hlen, hbd⟩ := hInv sh
  by_cases hsh : sh = sheet
  · subst hsh
    rw [bufOf_addPendingChange_self]
    have hsub : (if (bufOf st sh).length ≥ 100 then (bufOf st sh).tail else bufOf st sh).Sublist
        (bufOf st sh) := by
      split
      · exact List.tail_sublist _
      · exact List.Sublist.refl _
    refine ⟨?_, ?_, ?_⟩
    · rw [List.pairwise_append]
      refine ⟨List.Pairwise.sublist hsub hpw, by simp, ?_⟩
      intro x hx y hy
      rw [List.mem_singleton] at hy
      rw [hy, hc]
      exact le_trans (hbd x (hsub.subset hx)) hb
    · rw [List.length_append]
      simp only [List.length_cons, List.length_nil]
      split
      · rename_i hge
        rw [List.length_tail]
        omega
      · rename_i hlt
        omega
    · intro x hx
      rw [List.mem_append] at hx
      rcases hx with h | h
      · exact le_trans (hbd x (hsub.subset h)) hb
      · rw [List.mem_singleton] at h
        rw [h, hc]
  · rw [bufOf_addPendingChange_ne _ _ _ _ hsh]
    exact ⟨hpw, hlen, fun x hx => le_trans (hbd x hx) hb⟩

theorem setVersion_inv (st : SyncState) (b : Int) (sheet pk : String) (v : Int)
    (hInv : BufInv st b) : BufInv (setVersion st sheet pk v) b := by
  intro sh
  rw [bufOf_setVersion]
  exact hInv sh

theorem applySyncOp_inv (st : SyncState) (b : Int) (op : SyncOp)
    (hInv : BufInv st b) (hb : b ≤ opNow op) : BufInv (applySyncOp st op) (opNow op) := by
  cases op with
  | recExt sheet data n =>
    simp only [applySyncOp, recordExternalChange, opNow] at hb ⊢
    exact addPendingChange_inv _ b _ _ n (setVersion_inv _ _ _ _ _ hInv) hb rfl
  | proc task n =>
    simp only [applySyncOp, processUpdate, opNow] at hb ⊢
    split
    · intro sh
      obtain ⟨hpw, hlen, hbd⟩ := hInv sh
      exact ⟨hpw, hlen, fun x hx => le_trans (hbd x hx) hb⟩
    · intro sh
      exact (addPendingChange_inv _ b _ _ n (setVersion_inv _ _ _ _ _ hInv) hb rfl) sh
  | clean n maxAge =>
    simp only [applySyncOp, opNow] at hb ⊢
    intro sh
    obtain ⟨hpw, hlen, hbd⟩ := hInv sh
    rw [bufOf_cleanup]
    refine ⟨List.Pairwise.filter _ hpw, ?_, ?_⟩
    · exact le_trans (List.length_filter_le _ _) hlen
    · intro x hx
      exact le_trans (hbd x (List.mem_filter.mp hx).1) hb

theorem runFrom_inv (ops : List SyncOp) (st : SyncState) (b : Int)
    (hInv : BufInv st b) (hchain : List.Chain (· ≤ ·) b (ops.map opNow)) :
    ∃ b', BufInv (ops.foldl applySyncOp st) b' := by
  induction ops generalizing st b with
  | nil => exact ⟨b, hInv⟩
  | cons op rest ih =>
    rw [List.map_cons] at hchain
    cases hchain with
    | cons hle hc =>
      exact ih (applySyncOp st op) (opNow op) (applySyncOp_inv st b op hInv hle) hc

theorem initSyncState_inv (b : Int) : BufInv initSyncState b := by
  intro sh
  refine ⟨?_, ?_, ?_⟩ <;> simp [bufOf, initSyncState, lookupA_nil]

/-- C6: in any tracker state reachable from startup by operations whose
observed clock values never decrease, `getChangesSince(collection, v)`
returns exactly the buffered entries with version strictly greater than
`v`, in ascending (non-decreasing) version order, and never more entries
than the ring-buffer capacity of 100 per collection (the oldest entry is
the one evicted on overflow). -/
theorem getChangesSince_spec (ops : List SyncOp) (sheet : String) (v : Int)
    (h : List.Chain' (· ≤ ·) (ops.map opNow)) :
    (getChangesSince (runSyncOps ops) sheet v =
      (bufOf (runSyncOps ops) sheet).filter (fun c => decide (c.version > v))) ∧
    (getChangesSince (runSyncOps ops) sheet v).Pairwise (fun x y => x.version ≤ y.version) ∧
    (getChangesSince (runSyncOps ops) sheet v).length ≤ 100 := by
  have hex : ∃ b', BufInv (runSyncOps ops) b' := by
    cases ops with
    | nil => exact ⟨0, initSyncState_inv 0⟩
    | cons op rest =>
      have hchain : List.Chain (· ≤ ·) (opNow op) ((op :: rest).map opNow) := by
        rw [List.map_cons]
        exact List.Chain.cons (le_refl _) h
      exact runFrom_inv (op :: rest) initSyncState (opNow op) (initSyncState_inv _) hchain
  obtain ⟨b', hInv⟩ := hex
  obtain ⟨hpw, hlen, _⟩ := hInv sheet
  refine ⟨rfl, ?_, ?_⟩
  · exact List.Pairwise.filter _ hpw
  · exact le_trans (List.length_filter_le _ _) hlen

/-- C6 witness: three recorded changes at clocks 1, 2, 3. -/
theorem getChangesSince_spec_witness :
    List.Chain' (· ≤ ·)
      (([SyncOp.recExt ("F3") [(("id"), ("1"))] 1,
         SyncOp.recExt ("F3") [(("id"), ("2"))] 2,
         SyncOp.recExt ("F3") [(("id"), ("3"))] 3]).map opNow) ∧
    ((getChangesSince (runSyncOps
        [SyncOp.recExt ("F3") [(("id"), ("1"))] 1,
         SyncOp.recExt ("F3") [(("id"), ("2"))] 2,
         SyncOp.recExt ("F3") [(("id"), ("3"))] 3]) ("F3") 0 =
      (bufOf (runSyncOps
        [SyncOp.recExt ("F3") [(("id"), ("1"))] 1,
         SyncOp.recExt ("F3") [(("id"), ("2"))] 2,
         SyncOp.recExt ("F3") [(("id"), ("3"))] 3]) ("F3")).filter
          (fun c => decide (c.version > 0))) ∧
     (getChangesSince (runSyncOps
        [SyncOp.recExt ("F3") [(("id"), ("1"))] 1,
         SyncOp.recExt ("F3") [(("id"), ("2"))] 2,
         SyncOp.recExt ("F3") [(("id"), ("3"))] 3]) ("F3") 0).Pairwise
          (fun x y => x.version ≤ y.version) ∧
     (getChangesSince (runSyncOps
        [SyncOp.recExt ("F3") [(("id"), ("1"))] 1,
         SyncOp.recExt ("F3") [(("id"), ("2"))] 2,
         SyncOp.recExt ("F3") [(("id"), ("3"))] 3]) ("F3") 0).length ≤ 100) :=
  ⟨List.Chain.cons (by decide) (List.Chain.cons (by decide) List.Chain.nil),
   getChangesSince_spec
     [SyncOp.recExt ("F3") [(("id"), ("1"))] 1,
      SyncOp.recExt ("F3") [(("id"), ("2"))] 2,
      SyncOp.recExt ("F3") [(("id"), ("3"))] 3] ("F3") 0
     (List.Chain.cons (by decide) (List.Chain.cons (by decide) List.Chain.nil))⟩

/-- C5 counterexample: two `recordExternalChange` calls for the same
collection in the same instant (`Date.now() = 100` for both) return the
version 100 twice — the second returned version is not strictly greater
than the first, and the two same-instant changes do not receive
distinct, insertion-ordered versions. -/
theorem record_version_counterexample :
    (recordExternalChange initSyncState ("F3") [(("id"), ("1"))] 100).1 = 100 ∧
    (recordExternalChange
        (recordExternalChange initSyncState ("F3") [(("id"), ("1"))] 100).2
        ("F3") [(("id"), ("2"))] 100).1 = 100 ∧
    ¬ ((recordExternalChange
          (recordExternalChange initSyncState ("F3") [(("id"), ("1"))] 100).2
          ("F3") [(("id"), ("2"))] 100).1 >
        (recordExternalChange initSyncState ("F3") [(("id"), ("1"))] 100).1) :=
  ⟨rfl, rfl, by decide⟩

/-- C5 amended: the version returned for a recorded change is exactly
the wall-clock value `Date.now()` observed by the call — both for
`recordExternalChange` and for an accepted `processUpdate` — so returned
versions are strictly increasing precisely when the clock strictly
advances between calls; there is no insertion-order tie-breaking. -/
theorem record_version_clock (st : SyncState) (sheet : String)
    (c1 c2 : List (String × String)) (task : SyncTask) (n1 n2 : Int) (h : n1 < n2) :
    (recordExternalChange st sheet c1 n1).1 = n1 ∧
    (recordExternalChange (recordExternalChange st sheet c1 n1).2 sheet c2 n2).1 = n2 ∧
    (recordExternalChange st sheet c1 n1).1 <
      (recordExternalChange (recordExternalChange st sheet c1 n1).2 sheet c2 n2).1 ∧
    (truthyInt task.clientVersion = false →
      (processUpdate st task n1).1 = ProcResult.success n1) := by
  refine ⟨rfl, rfl, h, ?_⟩
  intro ht
  simp [processUpdate, ht]

/-- C5 amended witness: clocks 100 and 101, and a task with a null
client version. -/
theorem record_version_clock_witness :
    (100 : Int) < 101 ∧
    ((recordExternalChange initSyncState ("F3") [(("id"), ("1"))] 100).1 = 100 ∧
     (recordExternalChange (recordExternalChange initSyncState ("F3") [(("id"), ("1"))] 100).2
        ("F3") [(("id"), ("2"))] 101).1 = 101 ∧
     (recordExternalChange initSyncState ("F3") [(("id"), ("1"))] 100).1 <
       (recordExternalChange (recordExternalChange initSyncState ("F3") [(("id"), ("1"))] 100).2
          ("F3") [(("id"), ("2"))] 101).1 ∧
     (truthyInt (SyncTask.mk ("F3") [(("id"), ("1"))] none 0).clientVersion = false →
       (processUpdate initSyncState (SyncTask.mk ("F3") [(("id"), ("1"))] none 0) 100).1 =
         ProcResult.success 100)) :=
  ⟨by decide,
   record_version_clock initSyncState ("F3") [(("id"), ("1"))] [(("id"), ("2"))]
     (SyncTask.mk ("F3") [(("id"), ("1"))] none 0) 100 101 (by decide)⟩

end SyncQueueService

/-!
Broadcast Hub — `SSEController` (src/src/controller/sse.controller.js):
per-sheet subscriber registry (`Map<sheetName, Set<res>>`) and fan-out.
Connections are modelled by numeric handles; whether a connection's
`res.write` throws during one broadcast is an oracle `writeOk`.
-/

namespace SSEController

open SyncModel

/-- Controller state: the registry and the stats counters. -/
structure SSEState where
  clients : List (String × List Nat)
  totalConnections : Int
  activeConnections : Int
  messagesSent : Int
deriving DecidableEq

/-- The constructor state. -/
def initSSEState : SSEState := ⟨[], 0, 0, 0⟩

/-- `addClient(sheetName, res)`: create the set on demand, add (a JS Set
ignores a duplicate), bump both connection counters. -/
def addClient (st : SSEState) (sheetName : String) (c : Nat) : SSEState :=
  { st with
    clients := setA st.clients sheetName
                 (if ((lookupA st.clients sheetName).getD []).any (fun x => decide (x = c)) then
                    (lookupA st.clients sheetName).getD []
                  else ((lookupA st.clients sheetName).getD []) ++ [c]),
    totalConnections := st.totalConnections + 1,
    activeConnections := st.activeConnections + 1 }

/-- `removeClient(sheetName, res)`: no-op when the sheet has no set;
otherwise delete the connection, decrement the active counter, and drop
the sheet's entry entirely when its set became empty. -/
def removeClient (st : SSEState) (sheetName : String) (c : Nat) : SSEState :=
  match lookupA st.clients sheetName with
  | none => st
  | some set =>
    if (set.filter (fun x => !(decide (x = c)))).isEmpty then
      { st with
        clients := eraseA st.clients sheetName,
        activeConnections := st.activeConnections - 1 }
    else
      { st with
        clients := setA st.clients sheetName (set.filter (fun x => !(decide (x = c)))),
        activeConnections := st.activeConnections - 1 }

/-- `broadcast(sheetName, data)` with write-failure oracle `writeOk`:
no registered set (or an empty one) returns 0 at once; otherwise every
connection is written to, the successes are counted into `messagesSent`,
and the dead connections are then removed from the registry. -/
def broadcast (st : SSEState) (sheetName : String) (writeOk : Nat → Bool) : Nat × SSEState :=
  if ((lookupA st.clients sheetName).getD []).isEmpty then (0, st)
  else
    ((((lookupA st.clients sheetName).getD []).filter writeOk).length,
     (((lookupA st.clients sheetName).getD []).filter (fun c => !(writeOk c))).foldl
       (fun acc c => removeClient acc sheetName c)
       { st with
         messagesSent := st.messagesSent +
           (((((lookupA st.clients sheetName).getD []).filter writeOk).length : Nat) : Int) })

/-- Sequential deletion of a list of connections from one sheet's set. -/
def removeAll (cur : List Nat) (ds : List Nat) : List Nat :=
  ds.foldl (fun l c => l.filter (fun x => !(decide (x = c)))) cur

theorem removeClient_none (st : SSEState) (sheet : String) (c : Nat)
    (h : lookupA st.clients sheet = none) : removeClient st sheet c = st := by
  unfold removeClient
  rw [h]

theorem foldl_removeClient_none (ds : List Nat) (st : SSEState) (sheet : String)
    (h : lookupA st.clients sheet = none) :
    ds.foldl (fun acc c => removeClient acc sheet c) st = st := by
  induction ds with
  | nil => rfl
  | cons d rest ih =>
    rw [List.foldl_cons, removeClient_none st sheet d h]
    exact ih

theorem removeAll_nil_of_nil (ds : List Nat) : removeAll [] ds = [] := by
  induction ds with
  | nil => rfl
  | cons d rest ih => exact ih

theorem foldl_removeClient_lookup (sheet : String) (ds : List Nat) (st : SSEState)
    (cur : List Nat) (hne : ds ≠ []) (h : lookupA st.clients sheet = some cur) :
    lookupA (ds.foldl (fun acc c => removeClient acc sheet c) st).clients sheet =
      (if removeAll cur ds = [] then none else some (removeAll cur ds)) := by
  induction ds generalizing st cur with
  | nil => exact absurd rfl hne
  | cons d rest ih =>
    rw [List.foldl_cons]
    have hstep : removeClient st sheet d =
        (if (cur.filter (fun x => !(decide (x = d)))).isEmpty then
          { st with
            clients := eraseA st.clients sheet,
            activeConnections := st.activeConnections - 1 }
        else
          { st with
            clients := setA st.clients sheet (cur.filter (fun x => !(decide (x = d)))),
            activeConnections := st.activeConnections - 1 }) := by
      unfold removeClient
      rw [h]
    have hra : removeAll cur (d :: rest) =
        removeAll (cur.filter (fun x => !(decide (x = d)))) rest := rfl
    by_cases hempty : (cur.filter (fun x => !(decide (x = d)))).isEmpty
    · rw [hstep, if_pos hempty]
      have hnone : lookupA ({ st with
          clients := eraseA st.clients sheet,
          activeConnections := st.activeConnections - 1 } : SSEState).clients sheet = none :=
        lookupA_eraseA_self st.clients sheet
      rw [foldl_removeClient_none rest _ sheet hnone, hnone]
      have hfil : cur.filter (fun x => !(decide (x = d))) = [] := by
        rwa [List.isEmpty_iff] at hempty
      have hzero : removeAll cur (d :: rest) = [] := by
        rw [hra, hfil]
        exact removeAll_nil_of_nil rest
      rw [if_pos hzero]
    · rw [hstep, if_neg hempty]
      have hlook : lookupA ({ st with
          clients := setA st.clients sheet (cur.filter (fun x => !(decide (x = d)))),
          activeConnections := st.activeConnections - 1 } : SSEState).clients sheet =
          some (cur.filter (fun x => !(decide (x = d)))) :=
        lookupA_setA_self st.clients sheet _
      by_cases hrest : rest = []
      · subst hrest
        rw [List.foldl_nil, hlook, hra]
        rw [show removeAll (cur.filter (fun x => !(decide (x = d)))) [] =
            cur.filter (fun x => !(decide (x = d))) from rfl]
        rw [List.isEmpty_iff] at hempty
        rw [if_neg hempty]
      · rw [hra]
        exact ih _ _ hrest hlook


theorem removeAll_eq_filter_not_mem (ds cur : List Nat) :
    removeAll cur ds = cur.filter (fun x => !(ds.any (fun y => decide (y = x)))) := by
  induction ds generalizing cur with
  | nil => simp [removeAll]
  | cons d rest ih =>
    have h1 : removeAll cur (d :: rest) = removeAll (cur.filter (fun x => !(decide (x = d)))) rest :=
      rfl
    rw [h1, ih]
    rw [List.filter_filter]
    apply List.filter_congr
    intro x _
    by_cases hd : x = d
    · simp [hd]
    · have hd' : ¬ (d = x) := fun hh => hd hh.symm
      simp [hd, hd', List.any_cons]

theorem removeAll_dead_eq_filter (cur : List Nat) (ok : Nat → Bool) :
    removeAll cur (cur.filter (fun c => !(ok c))) = cur.filter ok := by
  rw [removeAll_eq_filter_not_mem]
  apply List.filter_congr
  intro x hx
  by_cases hok : ok x = true
  · have hnot : ((cur.filter (fun c => !(ok c))).any (fun y => decide (y = x))) = false := by
      rw [List.any_eq_false]
      intro y hy
      simp only [decide_eq_true_eq]
      intro hyx
      have hmem := (List.mem_filter.mp hy).2
      rw [hyx, hok] at hmem
      simp at hmem
    rw [hnot, hok]
    rfl
  · have hok' : ok x = false := by
      revert hok
      cases ok x <;> simp
    have hxin : x ∈ cur.filter (fun c => !(ok c)) :=
      List.mem_filter.mpr ⟨hx, by rw [hok']; rfl⟩
    have hany : ((cur.filter (fun c => !(ok c))).any (fun y => decide (y = x))) = true := by
      rw [List.any_eq_true]
      exact ⟨x, hxin, by simp⟩
    rw [hany, hok']
    rfl

theorem filter_eq_self_of_no_dead (cur : List Nat) (ok : Nat → Bool)
    (h : cur.filter (fun c => !(ok c)) = []) : cur.filter ok = cur := by
  rw [List.filter_eq_self]
  intro x hx
  by_cases hok : ok x = true
  · exact hok
  · exfalso
    have : x ∈ cur.filter (fun c => !(ok c)) := by
      rw [List.mem_filter]
      refine ⟨hx, ?_⟩
      simp [Bool.not_eq_true] at hok ⊢
      exact hok
    rw [h] at this
    exact absurd this (List.not_mem_nil x)

/-- C7: `broadcast(collection, event)` returns the number of successful
deliveries — the whole registered set is attempted, a single failure
aborts nothing — a collection with no subscribers yields 0 with the
state untouched (no error), and afterwards the collection's registry
entry holds exactly the surviving connections: every connection whose
write failed has been evicted (the entry disappears when none survive). -/
theorem broadcast_spec (st : SSEState) (sheet : String) (writeOk : Nat → Bool) :
    ((lookupA st.clients sheet).getD [] = [] → broadcast st sheet writeOk = (0, st)) ∧
    ((broadcast st sheet writeOk).1 =
      (((lookupA st.clients sheet).getD []).filter writeOk).length) ∧
    ((lookupA st.clients sheet).getD [] ≠ [] →
      lookupA (broadcast st sheet writeOk).2.clients sheet =
        (if ((lookupA st.clients sheet).getD []).filter writeOk = [] then none
         else some (((lookupA st.clients sheet).getD []).filter writeOk))) := by
  refine ⟨?_, ?_, ?_⟩
  · intro h
    unfold broadcast
    rw [h]
    rfl
  · unfold broadcast
    by_cases h : ((lookupA st.clients sheet).getD []).isEmpty
    · rw [if_pos h]
      rw [List.isEmpty_iff] at h
      rw [h]
      rfl
    · rw [if_neg h]
  · intro hne
    have hisEmpty : ((lookupA st.clients sheet).getD []).isEmpty = false := by
      rw [List.isEmpty_eq_false_iff_exists_mem]
      cases hcur : (lookupA st.clients sheet).getD [] with
      | nil => exact absurd hcur hne
      | cons a t => exact ⟨a, List.mem_cons_self a t⟩
    have hcurSome : lookupA st.clients sheet = some ((lookupA st.clients sheet).getD []) := by
      cases hc : lookupA st.clients sheet with
      | none => rw [hc] at hne; exact absurd rfl hne
      | some cur => rfl
    unfold broadcast
    rw [hisEmpty]
    simp only [Bool.false_eq_true, if_false]
    by_cases hdead : ((lookupA st.clients sheet).getD []).filter (fun c => !(writeOk c)) = []
    · rw [hdead, List.foldl_nil]
      have hsurv := filter_eq_self_of_no_dead _ writeOk hdead
      have hcond : ¬ (((lookupA st.clients sheet).getD []).filter writeOk = []) := by
        rw [hsurv]
        exact hne
      rw [if_neg hcond, hsurv]
      exact hcurSome
    · have hmsg : lookupA ({ st with
          messagesSent := st.messagesSent +
            (((((lookupA st.clients sheet).getD []).filter writeOk).length : Nat) : Int) } :
            SSEState).clients sheet = some ((lookupA st.clients sheet).getD []) := hcurSome
      rw [foldl_removeClient_lookup sheet _ _ _ hdead hmsg]
      rw [removeAll_dead_eq_filter]

/-- C7 witness: three subscribers on "F3", the write to connection 2
fails; the broadcast delivers 2 and connection 2 is evicted. -/
theorem broadcast_spec_witness :
    ((lookupA (SSEState.mk [(("F3"), [1, 2, 3])] 3 3 0).clients ("F3")).getD [] = [] →
      broadcast (SSEState.mk [(("F3"), [1, 2, 3])] 3 3 0) ("F3")
          (fun c => !(decide (c = 2))) =
        (0, SSEState.mk [(("F3"), [1, 2, 3])] 3 3 0)) ∧
    ((broadcast (SSEState.mk [(("F3"), [1, 2, 3])] 3 3 0) ("F3")
        (fun c => !(decide (c = 2)))).1 =
      (((lookupA (SSEState.mk [(("F3"), [1, 2, 3])] 3 3 0).clients ("F3")).getD []).filter
          (fun c => !(decide (c = 2)))).length) ∧
    ((lookupA (SSEState.mk [(("F3"), [1, 2, 3])] 3 3 0).clients ("F3")).getD [] ≠ [] →
      lookupA (broadcast (SSEState.mk [(("F3"), [1, 2, 3])] 3 3 0) ("F3")
          (fun c => !(decide (c = 2)))).2.clients ("F3") =
        (if ((lookupA (SSEState.mk [(("F3"), [1, 2, 3])] 3 3 0).clients ("F3")).getD []).filter
              (fun c => !(decide (c = 2))) = [] then none
         else some (((lookupA (SSEState.mk [(("F3"), [1, 2, 3])] 3 3 0).clients
              ("F3")).getD []).filter (fun c => !(decide (c = 2)))))) :=
  broadcast_spec (SSEState.mk [(("F3"), [1, 2, 3])] 3 3 0) ("F3") (fun c => !(decide (c = 2)))

end SSEController

/-!
Failure handling and suppression-lock arming of `processQueue`
(src/src/services/updateQueue.service.js, catch block and per-item sheet
mirror).
-/

namespace UpdateQueueService

open SyncModel

theorem lookupA_remerge_some (tp q : List (String × Pending)) (k : String) (a : Pending)
    (h : lookupA q k = some a) : lookupA (remerge tp q) k = some a := by
  induction tp generalizing q with
  | nil => exact h
  | cons kv rest ih =>
    unfold remerge
    split
    · exact ih q h
    · exact ih _ (lookupA_append_some q [kv] k a h)

theorem lookupA_append_single_ne (q : List (String × Pending)) (kv : String × Pending)
    (k : String) (hk : kv.1 ≠ k) : lookupA (q ++ [kv]) k = lookupA q k := by
  cases hl : lookupA q k with
  | some a => exact lookupA_append_some q [kv] k a hl
  | none =>
    rw [lookupA_append_none q [kv] k hl, lookupA_cons, if_neg hk, lookupA_nil]

theorem lookupA_remerge (tp q : List (String × Pending)) (k : String) (p : Pending)
    (hp : lookupA tp k = some p) :
    lookupA (remerge tp q) k = some ((lookupA q k).getD p) := by
  induction tp generalizing q with
  | nil =>
    rw [lookupA_nil] at hp
    exact absurd hp (by simp)
  | cons kv rest ih =>
    rw [lookupA_cons] at hp
    by_cases hk : kv.1 = k
    · rw [if_pos hk] at hp
      have hpv : kv.2 = p := Option.some.inj hp
      unfold remerge
      by_cases hany : q.any (fun x => decide (x.1 = kv.1))
      · rw [if_pos hany]
        have hsome : (lookupA q kv.1).isSome := by
          rw [← any_key_eq_isSome]
          exact hany
        obtain ⟨a, ha⟩ := Option.isSome_iff_exists.mp hsome
        rw [hk] at ha
        rw [lookupA_remerge_some rest q k a ha, ha]
        rfl
      · rw [if_neg hany]
        have hqnone : lookupA q kv.1 = none := by
          cases hl : lookupA q kv.1 with
          | none => rfl
          | some a =>
            exfalso
            apply hany
            rw [any_key_eq_isSome, hl]
            rfl
        have hqnone' : lookupA q k = none := hk ▸ hqnone
        have happ : lookupA (q ++ [kv]) k = some p := by
          rw [lookupA_append_none q [kv] k hqnone', lookupA_cons, if_pos hk, hpv]
        rw [lookupA_remerge_some rest _ k p happ, hqnone']
        rfl
    · rw [if_neg hk] at hp
      unfold remerge
      by_cases hany : q.any (fun x => decide (x.1 = kv.1))
      · rw [if_pos hany]
        exact ih q hp
      · rw [if_neg hany]
        rw [ih (q ++ [kv]) hp]
        rw [lookupA_append_single_ne q kv k hk]

/-- C3 counterexample: the snapshot holds a pending update for "DH1"
with timestamp 200; its store write throws; meanwhile an update for the
same key with the strictly older timestamp 150 was enqueued. The
newer-timestamp-wins comparison of `enqueue` would keep the timestamp-200
update, but the catch block re-queues only into empty slots, so the
older-timestamped update survives and the newer one is dropped. -/
theorem processQueue_requeue_counterexample :
    lookupA (processQueue
        (QState.mk [(("DH1"), Pending.mk ("DH1") [(("gia_ban"), ("10"))] Source.web 200)] [] false)
        (FlushEnv.mk (fun _ => DbOutcome.errored) (fun _ => true))
        [EnqCall.mk ("DH1") [(("gia_ban"), ("20"))] Source.web 150] 300).1.queue ("DH1") =
      some (Pending.mk ("DH1") [(("gia_ban"), ("20"))] Source.web 150) ∧
    (150 : Int) < 200 ∧
    (processQueue
        (QState.mk [(("DH1"), Pending.mk ("DH1") [(("gia_ban"), ("10"))] Source.web 200)] [] false)
        (FlushEnv.mk (fun _ => DbOutcome.errored) (fun _ => true))
        [EnqCall.mk ("DH1") [(("gia_ban"), ("20"))] Source.web 150] 300).2.threw = true := by
  refine ⟨?_, by decide, ?_⟩ <;> decide

/-- C3 amended: when a store write throws during a flush tick, every
snapshot entry is re-merged into the live queue unless an update for the
same key was enqueued in the meantime; in that case the meantime update
is kept unconditionally — no timestamp comparison is performed (this
coincides with newer-wins only when the meantime timestamp is at least
the snapshot one's). No snapshot key is ever left without a queue entry,
so a transient storage failure does not silently lose data. -/
theorem processQueue_requeue_on_failure (s : QState) (env : FlushEnv) (during : List EnqCall)
    (now : Int) (k : String) (p : Pending)
    (hproc : s.isProcessing = false)
    (hk : lookupA s.queue k = some p)
    (hthrew : (processQueue s env during now).2.threw = true) :
    lookupA (processQueue s env during now).1.queue k =
      some ((lookupA (applyEnqueues (clearedState s) during).queue k).getD p) := by
  have hqne : s.queue.isEmpty = false := by
    cases hq : s.queue with
    | nil =>
      rw [hq, lookupA_nil] at hk
      exact absurd hk (by simp)
    | cons a t => rfl
  have hcond : (s.isProcessing || s.queue.isEmpty) = false := by
    rw [hproc, hqne]
    rfl
  unfold processQueue at hthrew ⊢
  rw [hcond] at hthrew ⊢
  simp only [Bool.false_eq_true, if_false] at hthrew ⊢
  unfold flushRun at hthrew ⊢
  simp only at hthrew
  rw [if_pos hthrew]
  exact lookupA_remerge s.queue _ k p hk

/-- C3 amended witness: the concrete run of the counterexample scenario
seen through the amended statement. -/
theorem processQueue_requeue_on_failure_witness :
    ((QState.mk [(("DH1"), Pending.mk ("DH1") [(("gia_ban"), ("10"))] Source.web 200)]
        [] false).isProcessing = false ∧
     lookupA (QState.mk [(("DH1"), Pending.mk ("DH1") [(("gia_ban"), ("10"))] Source.web 200)]
        [] false).queue ("DH1") =
       some (Pending.mk ("DH1") [(("gia_ban"), ("10"))] Source.web 200) ∧
     (processQueue
        (QState.mk [(("DH1"), Pending.mk ("DH1") [(("gia_ban"), ("10"))] Source.web 200)] [] false)
        (FlushEnv.mk (fun _ => DbOutcome.errored) (fun _ => false))
        [EnqCall.mk ("DH1") [(("gia_ban"), ("20"))] Source.web 150] 300).2.threw = true) ∧
    lookupA (processQueue
        (QState.mk [(("DH1"), Pending.mk ("DH1") [(("gia_ban"), ("10"))] Source.web 200)] [] false)
        (FlushEnv.mk (fun _ => DbOutcome.errored) (fun _ => false))
        [EnqCall.mk ("DH1") [(("gia_ban"), ("20"))] Source.web 150] 300).1.queue ("DH1") =
      some ((lookupA (applyEnqueues
          (clearedState (QState.mk
            [(("DH1"), Pending.mk ("DH1") [(("gia_ban"), ("10"))] Source.web 200)] [] false))
          [EnqCall.mk ("DH1") [(("gia_ban"), ("20"))] Source.web 150]).queue ("DH1")).getD
        (Pending.mk ("DH1") [(("gia_ban"), ("10"))] Source.web 200)) :=
  ⟨⟨rfl, by decide, by decide⟩,
   processQueue_requeue_on_failure
     (QState.mk [(("DH1"), Pending.mk ("DH1") [(("gia_ban"), ("10"))] Source.web 200)] [] false)
     (FlushEnv.mk (fun _ => DbOutcome.errored) (fun _ => false))
     [EnqCall.mk ("DH1") [(("gia_ban"), ("20"))] Source.web 150] 300 ("DH1")
     (Pending.mk ("DH1") [(("gia_ban"), ("10"))] Source.web 200)
     rfl (by decide) (by decide)⟩

theorem runItems_locks_no_key (items : List Pending) (env : FlushEnv) (now : Int)
    (locks : List (String × Int)) (k : String)
    (hnot : ∀ q ∈ items, q.maDonHang ≠ k) :
    lookupA (runItems items env now locks).1 k = lookupA locks k := by
  induction items generalizing locks with
  | nil => rfl
  | cons p rest ih =>
    have hpk : p.maDonHang ≠ k := hnot p (List.mem_cons_self _ _)
    have hrest : ∀ q ∈ rest, q.maDonHang ≠ k := fun q hq => hnot q (List.mem_cons_of_mem _ hq)
    rcases hdb : env.dbOutcome p.maDonHang with _ | _ | _
    · simp only [runItems, hdb]
      rw [ih _ hrest]
      split
      · split
        · exact lookupA_setA_ne locks p.maDonHang k _ (fun hh => hpk hh.symm)
        · rfl
      · rfl
    · simp only [runItems, hdb]
      exact ih locks hrest
    · simp only [runItems, hdb]
end UpdateQueueService

namespace UpdateQueueService

open SyncModel

theorem runItems_spec_mem (items : List Pending) (env : FlushEnv) (now : Int)
    (locks : List (String × Int)) (k : String) (p : Pending)
    (hnodup : (items.map Pending.maDonHang).Nodup)
    (hnoerr : ∀ q ∈ items, env.dbOutcome q.maDonHang ≠ DbOutcome.errored)
    (hp : p ∈ items) (hkey : p.maDonHang = k)
    (happ : env.dbOutcome k = DbOutcome.applied) (hweb : p.source = Source.web) :
    p ∈ (runItems items env now locks).2.1 ∧
    (env.sheetOk k = true → lookupA (runItems items env now locks).1 k = some (now + 10000)) ∧
    (env.sheetOk k = false → lookupA (runItems items env now locks).1 k = lookupA locks k) := by
  induction items generalizing locks with
  | nil => exact absurd hp (List.not_mem_nil p)
  | cons q rest ih =>
    rw [List.map_cons, List.nodup_cons] at hnodup
    rcases List.mem_cons.mp hp with hpq | hpr
    · subst hpq
      have hdb : env.dbOutcome p.maDonHang = DbOutcome.applied := by
        rw [hkey]
        exact happ
      have hsw : decide (p.source = Source.web) = true := by
        rw [hweb]
        rfl
      have hnotrest : ∀ x ∈ rest, x.maDonHang ≠ k := by
        intro x hx hxe
        apply hnodup.1
        rw [← hxe] at hkey
        rw [hkey]
        exact List.mem_map_of_mem Pending.maDonHang hx
      simp only [runItems, hdb, hsw, if_true]
      rw [hkey]
      refine ⟨List.mem_cons_self _ _, ?_, ?_⟩
      · intro hsheet
        rw [runItems_locks_no_key rest env now
          (if env.sheetOk k = true then setA locks k (now + 10000) else locks) k hnotrest]
        have hlocks : (if env.sheetOk k = true then setA locks k (now + 10000) else locks) =
            setA locks k (now + 10000) := by
          simp [hsheet]
        rw [hlocks]
        exact lookupA_setA_self locks k _
      · intro hsheet
        rw [runItems_locks_no_key rest env now
          (if env.sheetOk k = true then setA locks k (now + 10000) else locks) k hnotrest]
        have hlocks : (if env.sheetOk k = true then setA locks k (now + 10000) else locks) =
            locks := by
          simp [hsheet]
        rw [hlocks]
    · have hqk : q.maDonHang ≠ k := by
        intro hqe
        apply hnodup.1
        rw [hqe, ← hkey]
        exact List.mem_map_of_mem Pending.maDonHang hpr
      have hih : ∀ locks' : List (String × Int),
          p ∈ (runItems rest env now locks').2.1 ∧
          (env.sheetOk k = true →
            lookupA (runItems rest env now locks').1 k = some (now + 10000)) ∧
          (env.sheetOk k = false →
            lookupA (runItems rest env now locks').1 k = lookupA locks' k) :=
        fun locks' =>
          ih locks' hnodup.2 (fun x hx => hnoerr x (List.mem_cons_of_mem _ hx)) hpr
      rcases hdbq : env.dbOutcome q.maDonHang with _ | _ | _
      · have hl : ∀ locks' : List (String × Int),
            lookupA (if decide (q.source = Source.web) = true then
              (if env.sheetOk q.maDonHang = true then
                setA locks' q.maDonHang (now + 10000) else locks') else locks') k =
            lookupA locks' k := by
          intro locks'
          split
          · split
            · exact lookupA_setA_ne locks' q.maDonHang k _ (fun hh => hqk hh.symm)
            · rfl
          · rfl
        simp only [runItems, hdbq]
        refine ⟨List.mem_cons_of_mem _ (hih _).1, ?_, ?_⟩
        · intro hsheet
          exact ((hih _).2.1) hsheet
        · intro hsheet
          rw [((hih _).2.2) hsheet]
          exact hl locks
      · simp only [runItems, hdbq]
        exact hih locks
      · exact absurd hdbq (hnoerr q (List.mem_cons_self _ _))

/-- C10: in a flush that runs with no store errors, consider a
web-sourced snapshot item whose store write is applied. Its store write
is always among the committed writes of the tick; the suppression lock
for its key is armed (expiring at `Date.now() + 10000`) exactly when the
sheet mirror write for it succeeded, and when the mirror write throws no
lock is created for the key — the lock map entry is exactly what it was
before the tick — while the committed store write is unaffected. -/
theorem processQueue_lock_after_mirror (s : QState) (env : FlushEnv) (now : Int)
    (k : String) (p : Pending)
    (hproc : s.isProcessing = false)
    (hkeys : ∀ x ∈ s.queue, (x.2).maDonHang = x.1)
    (hnodup : (s.queue.map Prod.fst).Nodup)
    (hk : (k, p) ∈ s.queue)
    (hnoerr : ∀ x ∈ s.queue, env.dbOutcome (x.2).maDonHang ≠ DbOutcome.errored)
    (happ : env.dbOutcome k = DbOutcome.applied)
    (hweb : p.source = Source.web) :
    (p ∈ (processQueue s env [] now).2.dbWrites) ∧
    (env.sheetOk k = false →
      lookupA (processQueue s env [] now).1.syncLocks k = lookupA s.syncLocks k) ∧
    (env.sheetOk k = true →
      lookupA (processQueue s env [] now).1.syncLocks k = some (now + 10000)) := by
  have hqne : s.queue.isEmpty = false := by
    cases hq : s.queue with
    | nil =>
      rw [hq] at hk
      exact absurd hk (List.not_mem_nil _)
    | cons a t => rfl
  have hcond : (s.isProcessing || s.queue.isEmpty) = false := by
    rw [hproc, hqne]
    rfl
  have hmid : applyEnqueues (clearedState s) [] = clearedState s := rfl
  have hp_items : p ∈ s.queue.map Prod.snd := List.mem_map_of_mem Prod.snd hk
  have hkey : p.maDonHang = k := hkeys (k, p) hk
  have hnodup_items : ((s.queue.map Prod.snd).map Pending.maDonHang).Nodup := by
    rw [List.map_map]
    have : s.queue.map (Pending.maDonHang ∘ Prod.snd) = s.queue.map Prod.fst :=
      List.map_congr_left (fun x hx => hkeys x hx)
    rw [this]
    exact hnodup
  have hnoerr_items : ∀ q ∈ s.queue.map Prod.snd, env.dbOutcome q.maDonHang ≠ DbOutcome.errored := by
    intro q hq
    obtain ⟨x, hx, hxq⟩ := List.mem_map.mp hq
    rw [← hxq]
    exact hnoerr x hx
  have hrun := runItems_spec_mem (s.queue.map Prod.snd) env now
    (applyEnqueues (clearedState s) []).syncLocks k p
    hnodup_items hnoerr_items hp_items hkey happ hweb
  unfold processQueue
  rw [hcond]
  simp only [Bool.false_eq_true, if_false]
  unfold flushRun
  refine ⟨hrun.1, ?_, ?_⟩
  · intro hsheet
    exact (hrun.2.2) hsheet
  · intro hsheet
    exact (hrun.2.1) hsheet

/-- C10 witness: a one-item queue, the store write applied, the mirror
write failing; no lock is created and the write is committed. -/
theorem processQueue_lock_after_mirror_witness :
    ((QState.mk [(("DH9"), Pending.mk ("DH9") [(("gia_ban"), ("7"))] Source.web 5)]
        [] false).isProcessing = false ∧
     (∀ x ∈ (QState.mk [(("DH9"), Pending.mk ("DH9") [(("gia_ban"), ("7"))] Source.web 5)]
        [] false).queue, (x.2).maDonHang = x.1) ∧
     (((QState.mk [(("DH9"), Pending.mk ("DH9") [(("gia_ban"), ("7"))] Source.web 5)]
        [] false).queue.map Prod.fst).Nodup) ∧
     ((("DH9"), Pending.mk ("DH9") [(("gia_ban"), ("7"))] Source.web 5) ∈
       (QState.mk [(("DH9"), Pending.mk ("DH9") [(("gia_ban"), ("7"))] Source.web 5)]
        [] false).queue)) ∧
    ((Pending.mk ("DH9") [(("gia_ban"), ("7"))] Source.web 5 ∈
       (processQueue
         (QState.mk [(("DH9"), Pending.mk ("DH9") [(("gia_ban"), ("7"))] Source.web 5)] [] false)
         (FlushEnv.mk (fun _ => DbOutcome.applied) (fun _ => false)) [] 70).2.dbWrites) ∧
     ((FlushEnv.mk (fun _ => DbOutcome.applied)
          (fun _ => false) : FlushEnv).sheetOk ("DH9") = false →
       lookupA (processQueue
           (QState.mk [(("DH9"), Pending.mk ("DH9") [(("gia_ban"), ("7"))] Source.web 5)] [] false)
           (FlushEnv.mk (fun _ => DbOutcome.applied) (fun _ => false)) [] 70).1.syncLocks ("DH9") =
         lookupA (QState.mk [(("DH9"), Pending.mk ("DH9") [(("gia_ban"), ("7"))] Source.web 5)]
           [] false).syncLocks ("DH9")) ∧
     ((FlushEnv.mk (fun _ => DbOutcome.applied)
          (fun _ => false) : FlushEnv).sheetOk ("DH9") = true →
       lookupA (processQueue
           (QState.mk [(("DH9"), Pending.mk ("DH9") [(("gia_ban"), ("7"))] Source.web 5)] [] false)
           (FlushEnv.mk (fun _ => DbOutcome.applied) (fun _ => false)) [] 70).1.syncLocks ("DH9") =
         some (70 + 10000))) :=
  ⟨⟨rfl, by decide, by decide, by decide⟩,
   processQueue_lock_after_mirror
     (QState.mk [(("DH9"), Pending.mk ("DH9") [(("gia_ban"), ("7"))] Source.web 5)] [] false)
     (FlushEnv.mk (fun _ => DbOutcome.applied) (fun _ => false)) 70 ("DH9")
     (Pending.mk ("DH9") [(("gia_ban"), ("7"))] Source.web 5)
     rfl (by decide) (by decide) (by decide) (fun x _ => by simp) (by simp) rfl⟩

end UpdateQueueService
